import Mathlib

/-!
Verification of the selectable-options state model of the
react-native-design-system-atoms repository: the selection handlers of
`AtomicFilter` and `AtomicPicker`, the sort handler of `AtomicSort`, the
picker search filter, and the numeric validation of `AtomicNumberInput`.

Each definition is a shallow embedding of the corresponding TypeScript
function; JavaScript strings become Lean `String`, JavaScript arrays
become Lean `List`, `undefined`/`null` become `Option`, and JavaScript
numbers are modelled as exact rationals `ℚ` (the texts the numeric input
accepts denote finite decimals, so no rounding behaviour of IEEE doubles
is relevant to the properties proved here).
-/

namespace DesignSystemAtoms

/-! ## Selection handlers (`AtomicFilter.handleFilterPress`,
`AtomicPicker.handleSelect`) -/

/-- Embedding of `handleFilterPress` from `AtomicFilter.tsx`: given the
`multiSelect` flag, the current `selectedIds` and the pressed `optionId`,
it computes the argument passed to `onSelectionChange`. -/
def handleFilterPress (multiSelect : Bool) (selectedIds : List String)
    (optionId : String) : List String :=
  if multiSelect then
    if selectedIds.contains optionId then
      selectedIds.filter (fun id => id != optionId)
    else
      selectedIds ++ [optionId]
  else
    if selectedIds.contains optionId then
      []
    else
      [optionId]

/-- Embedding of the `multiple` branch of `handleSelect` from
`AtomicPicker.tsx`: the `newValues` passed to `onChange`. -/
def handleSelectMulti (selectedValues : List String)
    (optionValue : String) : List String :=
  if selectedValues.contains optionValue then
    selectedValues.filter (fun v => v != optionValue)
  else
    selectedValues ++ [optionValue]

/-- A JavaScript value as it may arrive in the picker's `value` prop:
`undefined`/`null`, a single string, or an array of strings. -/
inductive PickerValue where
  | undef : PickerValue
  | str (s : String) : PickerValue
  | arr (vs : List String) : PickerValue
deriving DecidableEq

/-- JavaScript truthiness of a `PickerValue` (the empty string is falsy,
every array, even the empty one, is truthy). -/
def PickerValue.truthy : PickerValue → Bool
  | .undef => false
  | .str s => s != ""
  | .arr _ => true

/-- Embedding of the `selectedValues` memo from `AtomicPicker.tsx`:
`multiple ? (Array.isArray(value) ? value : []) : (value ? [value] : [])`.
The single branch wraps the raw prop value itself, so the result is kept
at type `List PickerValue`. -/
def selectedValues (multiple : Bool) (value : PickerValue) :
    List PickerValue :=
  if multiple then
    match value with
    | .arr vs => vs.map .str
    | _ => []
  else
    if value.truthy then [value] else []

/-! ## Sort handler (`AtomicSort.handleSortPress`) -/

/-- The `'asc' | 'desc'` union of the sort direction prop. -/
inductive SortDirection where
  | asc : SortDirection
  | desc : SortDirection
deriving DecidableEq

/-- The sort state the caller holds: the active sort option id (nullable)
and the current direction. -/
structure SortState where
  selectedId : Option String
  direction : SortDirection
deriving DecidableEq

/-- Embedding of `handleSortPress` from the `AtomicSort` component: the
pair passed to `onSortChange`, read back as the caller's next state. -/
def handleSortPress (s : SortState) (optionId : String) : SortState :=
  if s.selectedId = some optionId then
    { selectedId := some optionId,
      direction := if s.direction = .asc then .desc else .asc }
  else
    { selectedId := some optionId, direction := .asc }

/-! ## Picker search filter (`AtomicPicker.filteredOptions`) -/

/-- Model of JavaScript `String.prototype.toLowerCase`, character by
character (faithful on the ASCII texts these components handle). -/
def strToLower (s : String) : String :=
  String.mk (s.data.map Char.toLower)

/-- Model of JavaScript `String.prototype.trim`: drop whitespace from
both ends of the character list. -/
def jsTrim (s : String) : String :=
  String.mk
    (((s.data.dropWhile Char.isWhitespace).reverse.dropWhile
        Char.isWhitespace).reverse)

/-- `containsSub hay needle` models JavaScript
`String.prototype.includes` on the underlying character lists: `needle`
occurs contiguously somewhere in `hay` (the empty needle always
matches). -/
def containsSub (hay needle : List Char) : Bool :=
  needle.isPrefixOf hay ||
    match hay with
    | [] => false
    | _ :: t => containsSub t needle

/-- Embedding of the `PickerOption` interface from `picker/types`. -/
structure PickerOption where
  label : String
  value : String
  icon : Option String
  disabled : Option Bool
  description : Option String
  testID : Option String
deriving DecidableEq

/-- The predicate of the picker's search filter, applied to one option
with the already-lowercased `query`:
`opt.label.toLowerCase().includes(query) ||
 opt.description?.toLowerCase().includes(query)` (a missing description
makes the optional-chaining expression `undefined`, which is falsy). -/
def optionMatchesQuery (query : String) (opt : PickerOption) : Bool :=
  containsSub (strToLower opt.label).data query.data ||
    match opt.description with
    | some d => containsSub (strToLower d).data query.data
    | none => false

/-- Embedding of the `filteredOptions` memo from `AtomicPicker.tsx`:
an empty trimmed query returns `options` itself, otherwise the list is
filtered by the case-insensitive substring predicate. -/
def filteredOptions (options : List PickerOption) (searchQuery : String) :
    List PickerOption :=
  if jsTrim searchQuery = "" then options
  else options.filter (optionMatchesQuery (strToLower searchQuery))

/-! ## Numeric input (`AtomicNumberInput`) -/

/-- Decimal digit characters read as a natural number (big-endian). -/
def digitsToNat (ds : List Char) : Nat :=
  ds.foldl (fun a c => a * 10 + (c.toNat - 48)) 0

/-- The exponent part of a JavaScript float literal, after the `e`/`E`:
an optional sign and then the maximal run of digits. When no digit
follows, JavaScript's maximal-prefix parse stops before the `e`, which
is the same as an exponent of `0`. -/
def expPart (t : List Char) : Int :=
  match t with
  | '+' :: t2 => (digitsToNat (t2.takeWhile Char.isDigit) : Int)
  | '-' :: t2 => -(digitsToNat (t2.takeWhile Char.isDigit) : Int)
  | _ => (digitsToNat (t.takeWhile Char.isDigit) : Int)

/-- Model of JavaScript `parseFloat` over exact rationals: skip leading
whitespace, take an optional sign, then the maximal prefix of the form
`digits [. digits] [e sign digits]`; `none` models `NaN` (no mantissa
digit consumed). `Infinity` literals and IEEE rounding are outside the
model; every text the numeric input's regex gate admits is a finite
decimal, which this parse handles exactly. -/
def jsParseFloat (s : String) : Option ℚ :=
  let cs := s.data.dropWhile Char.isWhitespace
  let signAndRest : Int × List Char :=
    match cs with
    | '-' :: t => (-1, t)
    | '+' :: t => (1, t)
    | _ => (1, cs)
  let sign := signAndRest.1
  let cs1 := signAndRest.2
  let ip := cs1.takeWhile Char.isDigit
  let r1 := cs1.dropWhile Char.isDigit
  let fpAndRest : List Char × List Char :=
    match r1 with
    | '.' :: t => (t.takeWhile Char.isDigit, t.dropWhile Char.isDigit)
    | _ => ([], r1)
  let fp := fpAndRest.1
  let r2 := fpAndRest.2
  if ip.isEmpty && fp.isEmpty then none
  else
    let e : Int :=
      match r2 with
      | 'e' :: t => expPart t
      | 'E' :: t => expPart t
      | _ => 0
    let mantissa : Int :=
      sign * ((digitsToNat ip : Int) * 10 ^ fp.length + (digitsToNat fp : Int))
    let scale : Int := e - fp.length
    if 0 ≤ scale then some (mkRat (mantissa * 10 ^ scale.toNat) 1)
    else some (mkRat mantissa (10 ^ (-scale).toNat))

/-- A natural number rendered in decimal (own structural recursion so
that concrete witnesses evaluate inside the kernel). -/
def natToDigitsAux : Nat → Nat → List Char
  | 0, _ => []
  | _ + 1, 0 => []
  | fuel + 1, n => natToDigitsAux fuel (n / 10) ++ [Char.ofNat (48 + n % 10)]

/-- Decimal rendering of a natural number. -/
def natToString (n : Nat) : String :=
  if n = 0 then "0" else String.mk (natToDigitsAux (n + 1) n)

/-- Decimal rendering of an integer. -/
def intToString (i : Int) : String :=
  if i < 0 then "-" ++ natToString i.natAbs else natToString i.natAbs

/-- A fractional part padded with leading zeros to `k` digits. -/
def natFracPadded (n k : Nat) : String :=
  let s := natToString n
  String.mk (List.replicate (k - s.data.length) '0') ++ s

/-- Model of JavaScript number-to-string as used in the validator's
error messages: exact for integers and for fractions with a finite
decimal expansion of at most ten places (every bound in the spec's
scenarios is an integer). -/
def jsNumToString (q : ℚ) : String :=
  if q.den = 1 then intToString q.num
  else
    match (List.range 11).find? (fun k => 10 ^ k % q.den == 0) with
    | some k =>
      let scale := 10 ^ k / q.den
      let n := q.num.natAbs * scale
      (if q.num < 0 then "-" else "") ++
        natToString (n / 10 ^ k) ++ "." ++ natFracPadded (n % 10 ^ k) k
    | none => intToString q.num ++ "/" ++ natToString q.den

/-- The `max` bound check of `validateNumber`, shared by both `min`
branches: `max !== undefined && num > max` yields the maximum message. -/
def checkMax (maxBound : Option ℚ) (num : ℚ) : Option String :=
  match maxBound with
  | some mx =>
    if mx < num then some ("Maximum value is " ++ jsNumToString mx)
    else none
  | none => none

/-- Embedding of `validateNumber` from `AtomicNumberInput`: empty text,
a lone minus and a lone dot are provisional (no error, and the code
never consults `allowDecimal` here); otherwise the text is parsed with
`parseFloat`, `NaN` gives `Invalid number`, and a parsed value below
`min` or above `max` names the violated bound. -/
def validateNumber (minBound maxBound : Option ℚ) (text : String) :
    Option String :=
  if text = "" ∨ text = "-" ∨ text = "." then none
  else
    match jsParseFloat text with
    | none => some "Invalid number"
    | some num =>
      match minBound with
      | some m =>
        if num < m then some ("Minimum value is " ++ jsNumToString m)
        else checkMax maxBound num
      | none => checkMax maxBound num

/-- The validator contract exactly as claim C4 words it, including the
qualifier that a lone dot is provisional only when decimals are allowed;
written for comparison with `validateNumber`, which is the embedding of
the source. -/
def validateNumberSpec (allowDecimal : Bool) (minBound maxBound : Option ℚ)
    (text : String) : Option String :=
  if text = "" ∨ text = "-" ∨ (allowDecimal = true ∧ text = ".") then none
  else
    match jsParseFloat text with
    | none => some "Invalid number"
    | some num =>
      match minBound with
      | some m =>
        if num < m then some ("Minimum value is " ++ jsNumToString m)
        else checkMax maxBound num
      | none => checkMax maxBound num

/-- The regex gate of `handleChangeText`: `^-?\d*$` in integer mode and
`^-?\d*\.?\d*$` in decimal mode. After the optional minus, the decimal
pattern matches exactly the strings consisting of a maximal run of
digits, then optionally a dot followed by digits only, which is how it
is written here. -/
def matchesNumericRegex (allowDecimal : Bool) (text : String) : Bool :=
  let body :=
    match text.data with
    | '-' :: t => t
    | cs => cs
  if allowDecimal then
    match body.dropWhile Char.isDigit with
    | [] => true
    | '.' :: t => t.all Char.isDigit
    | _ => false
  else
    body.all Char.isDigit

/-- The observable effects of one `handleChangeText` call: the argument
of the `onTextChange` call if one is made, the argument of the
`onValueChange` call if one is made (`none` inside models `null`), and
the argument of `setInternalError` if it is called. -/
structure ChangeEffects where
  textEvent : Option String
  valueEvent : Option (Option ℚ)
  errorSet : Option (Option String)
deriving DecidableEq

/-- Embedding of `handleChangeText` from `AtomicNumberInput`:
provisional texts reset the error and report `null`; texts failing the
regex gate are dropped with no effect at all; otherwise the text is
validated, the error state set, the text reported, and the parsed value
reported exactly when validation passed. -/
def handleChangeText (allowDecimal : Bool) (minBound maxBound : Option ℚ)
    (text : String) : ChangeEffects :=
  if text = "" ∨ text = "-" ∨ (allowDecimal = true ∧ text = ".") then
    { textEvent := some text, valueEvent := some none,
      errorSet := some none }
  else if matchesNumericRegex allowDecimal text = false then
    { textEvent := none, valueEvent := none, errorSet := none }
  else if validateNumber minBound maxBound text = none ∧
      ¬(text = "" ∨ text = "-" ∨ text = ".") then
    { textEvent := some text, valueEvent := some (jsParseFloat text),
      errorSet := some (validateNumber minBound maxBound text) }
  else
    { textEvent := some text, valueEvent := some none,
      errorSet := some (validateNumber minBound maxBound text) }

end DesignSystemAtoms

namespace DesignSystemAtoms

/-! ## Claims about the selection and sort handlers -/

/-- C1: in multi mode, pressing an id that is present removes every
occurrence of it (a `filter`, so the relative order of the other ids is
unchanged); pressing an absent id appends it at the end. Both the filter
chip handler and the picker's multi-select handler behave this way. -/
theorem multi_select_toggle :
    ∀ (sel : List String) (id : String),
      handleFilterPress true sel id =
        (if id ∈ sel then sel.filter (fun x => x != id) else sel ++ [id]) ∧
      handleSelectMulti sel id =
        (if id ∈ sel then sel.filter (fun x => x != id) else sel ++ [id]) := by
  intro sel id
  have hc : sel.contains id = true ↔ id ∈ sel := List.elem_iff
  by_cases h : id ∈ sel <;>
    constructor <;>
    simp [handleFilterPress, handleSelectMulti, hc, h]

/-- C2: in single mode, starting from a well-formed single-mode selection
(at most one element), pressing the sole selected id clears the
selection, and pressing any other id replaces the selection with exactly
that id. -/
theorem single_select_toggle (sel : List String) (id : String)
    (h : sel.length ≤ 1) :
    handleFilterPress false sel id = (if sel = [id] then [] else [id]) := by
  match sel with
  | [] => simp [handleFilterPress]
  | [x] =>
    by_cases hx : x = id
    · subst hx; simp [handleFilterPress]
    · simp [handleFilterPress, hx, Ne.symm hx]
  | x :: y :: rest => simp at h

/-- Witness for C2 at a concrete input: selection `["a"]`, pressing
`"a"` clears it. -/
theorem single_select_toggle_witness :
    (["a"] : List String).length ≤ 1 ∧
      handleFilterPress false ["a"] "a" =
        (if (["a"] : List String) = ["a"] then [] else ["a"]) :=
  ⟨by decide, single_select_toggle ["a"] "a" (by decide)⟩

/-- C3: the sort handler keeps the id and flips the direction when the
pressed id is the active one, and otherwise selects the pressed id with
ascending direction; the spec's sample scenario from the null state is
included. -/
theorem sort_press_spec :
    (∀ (s : SortState) (id : String),
      handleSortPress s id =
        (if s.selectedId = some id then
          { selectedId := some id,
            direction := if s.direction = .asc then .desc else .asc }
        else
          { selectedId := some id, direction := .asc })) ∧
    handleSortPress ⟨none, .asc⟩ "name" = ⟨some "name", .asc⟩ ∧
    handleSortPress ⟨some "name", .asc⟩ "name" = ⟨some "name", .desc⟩ ∧
    handleSortPress ⟨some "name", .desc⟩ "date" = ⟨some "date", .asc⟩ := by
  refine ⟨fun s id => rfl, by decide, by decide, by decide⟩

/-- C8 counterexample: pressing `"y"` twice from the state where `"x"`
is selected ascending ends in descending direction, not the original
ascending one, so double-pressing an id does not restore the direction
in general. -/
theorem sort_double_press_cex :
    (handleSortPress (handleSortPress ⟨some "x", .asc⟩ "y") "y").direction ≠
      (SortState.mk (some "x") .asc).direction := by
  decide

/-- C8 amended: when the pressed id is already the selected id, pressing
it twice restores the original direction (flipping is an involution). -/
theorem sort_double_press_involution (s : SortState) (id : String)
    (h : s.selectedId = some id) :
    (handleSortPress (handleSortPress s id) id).direction = s.direction := by
  cases s with
  | mk sel dir =>
    subst h
    cases dir <;> simp [handleSortPress]

/-- Witness for the amended C8 at a concrete input: `"a"` selected
ascending, pressed twice. -/
theorem sort_double_press_involution_witness :
    (SortState.mk (some "a") .asc).selectedId = some "a" ∧
      (handleSortPress (handleSortPress ⟨some "a", .asc⟩ "a") "a").direction =
        (SortState.mk (some "a") .asc).direction :=
  ⟨rfl, sort_double_press_involution ⟨some "a", .asc⟩ "a" rfl⟩

/-- C9: single-select selections have cardinality at most 1: every output
of the single-mode filter handler, and the picker's normalized
selected-values list in single mode, has length at most 1. -/
theorem single_mode_cardinality :
    (∀ (sel : List String) (id : String),
      (handleFilterPress false sel id).length ≤ 1) ∧
    (∀ v : PickerValue, (selectedValues false v).length ≤ 1) := by
  constructor
  · intro sel id
    by_cases hc : id ∈ sel <;>
      simp [handleFilterPress, hc]
  · intro v
    by_cases ht : v.truthy = true <;>
      simp [selectedValues, ht]

/-! ## Claims about the search filter -/

/-- C5: for a query whose trimmed form is non-empty, the filtered list is
exactly the filter of the original list by the case-insensitive substring
predicate over label and description; in particular it is a subsequence
of the original list (order preserved), and membership is equivalent to
original membership plus a match. -/
theorem search_filter_spec (options : List PickerOption) (q : String)
    (h : jsTrim q ≠ "") :
    filteredOptions options q =
        options.filter (optionMatchesQuery (strToLower q)) ∧
      List.Sublist (filteredOptions options q) options ∧
      ∀ opt, opt ∈ filteredOptions options q ↔
        opt ∈ options ∧ optionMatchesQuery (strToLower q) opt = true := by
  have he : filteredOptions options q =
      options.filter (optionMatchesQuery (strToLower q)) := by
    simp [filteredOptions, h]
  refine ⟨he, ?_, ?_⟩
  · rw [he]; exact List.filter_sublist options
  · intro opt
    rw [he]
    exact List.mem_filter

/-- Witness for C5 at a concrete input: searching `"aPP"` among
`Apple` and `Banana` keeps exactly `Apple` (matched case-insensitively
on the label). -/
theorem search_filter_spec_witness :
    jsTrim "aPP" ≠ "" ∧
      filteredOptions
          [⟨"Apple", "a", none, none, none, none⟩,
           ⟨"Banana", "b", none, none, some "Yellow fruit", none⟩] "aPP" =
        List.filter (optionMatchesQuery (strToLower "aPP"))
          [⟨"Apple", "a", none, none, none, none⟩,
           ⟨"Banana", "b", none, none, some "Yellow fruit", none⟩] :=
  ⟨by decide,
    (search_filter_spec
      [⟨"Apple", "a", none, none, none, none⟩,
       ⟨"Banana", "b", none, none, some "Yellow fruit", none⟩]
      "aPP" (by decide)).1⟩

/-- C6: filtering with a query that trims to the empty string returns
the original option list itself. -/
theorem empty_query_returns_all (options : List PickerOption)
    (q : String) (h : jsTrim q = "") :
    filteredOptions options q = options := by
  simp [filteredOptions, h]

/-- Witness for C6 at a concrete input: a whitespace-only query leaves a
one-element option list unchanged. -/
theorem empty_query_returns_all_witness :
    jsTrim "  " = "" ∧
      filteredOptions [⟨"Apple", "a", none, none, none, none⟩] "  " =
        [⟨"Apple", "a", none, none, none, none⟩] :=
  ⟨by decide,
    empty_query_returns_all [⟨"Apple", "a", none, none, none, none⟩]
      "  " (by decide)⟩

/-! ## Claims about the numeric input -/

/-- A successful `checkMax` means the value does not exceed the `max`
bound when one is configured. -/
theorem checkMax_none (maxBound : Option ℚ) (v : ℚ)
    (h : checkMax maxBound v = none) :
    ∀ mx, maxBound = some mx → v ≤ mx := by
  intro mx hmx
  subst hmx
  simp only [checkMax] at h
  by_cases hlt : mx < v
  · rw [if_pos hlt] at h; cases h
  · exact le_of_not_lt hlt

/-- A non-provisional text that validates without error parses to a
value within the configured bounds. -/
theorem validateNumber_none_bounds (minBound maxBound : Option ℚ)
    (text : String) (hne : ¬(text = "" ∨ text = "-" ∨ text = "."))
    (h : validateNumber minBound maxBound text = none) :
    ∃ v, jsParseFloat text = some v ∧
      (∀ m, minBound = some m → m ≤ v) ∧
      (∀ mx, maxBound = some mx → v ≤ mx) := by
  unfold validateNumber at h
  rw [if_neg hne] at h
  split at h
  · cases h
  · next v hp =>
    split at h
    · split at h
      · cases h
      · next hnlt =>
        refine ⟨v, hp, ?_, checkMax_none maxBound v h⟩
        intro m2 hm2
        cases hm2
        exact le_of_not_lt hnlt
    · refine ⟨v, hp, ?_, checkMax_none maxBound v h⟩
      intro m2 hm2
      cases hm2

/-- C4 counterexample: with decimals not allowed, the claim does not
excuse a lone dot, and `parseFloat(".")` is `NaN`, so the claim as
stated demands the error `Invalid number` there; `validateNumber`
returns no error for a lone dot (it never consults `allowDecimal`). -/
theorem validate_lone_dot_cex :
    validateNumberSpec false (some 0) (some 150) "." =
        some "Invalid number" ∧
      validateNumber (some 0) (some 150) "." = none ∧
      jsParseFloat "." = none := by
  decide

/-- C4 amended: the validator behaves exactly as the claim describes
with the `(when decimals are allowed)` qualifier dropped — a lone dot is
provisional unconditionally; everything else (parse, `Invalid number`,
and the two bound messages) is as claimed. -/
theorem validate_number_amended :
    ∀ (minBound maxBound : Option ℚ) (text : String),
      validateNumber minBound maxBound text =
        validateNumberSpec true minBound maxBound text := by
  intro minBound maxBound text
  unfold validateNumber validateNumberSpec
  simp

/-- C7: a text that is not provisional and fails the numeric regex gate
is dropped completely: no text callback, no value callback, and no
update of the internal error state. -/
theorem reject_invalid_format (allowDecimal : Bool)
    (minBound maxBound : Option ℚ) (text : String)
    (hprov : ¬(text = "" ∨ text = "-" ∨ (allowDecimal = true ∧ text = ".")))
    (hre : matchesNumericRegex allowDecimal text = false) :
    handleChangeText allowDecimal minBound maxBound text =
      { textEvent := none, valueEvent := none, errorSet := none } := by
  unfold handleChangeText
  rw [if_neg hprov, if_pos hre]

/-- Witness for C7 at a concrete input: `"abc"` in integer mode is
rejected with no effects. -/
theorem reject_invalid_format_witness :
    (¬(("abc" : String) = "" ∨ ("abc" : String) = "-" ∨
        (false = true ∧ ("abc" : String) = "."))) ∧
      matchesNumericRegex false "abc" = false ∧
      handleChangeText false none none "abc" =
        { textEvent := none, valueEvent := none, errorSet := none } :=
  ⟨by decide, by decide,
    reject_invalid_format false none none "abc" (by decide) (by decide)⟩

/-- C10: for every accepted text (provisional, or passing the regex
gate), the value callback is invoked exactly once: with the parsed
number when the text is non-provisional and validation passes, and with
`null` otherwise; any number actually delivered is the parse of the text
and lies within the configured bounds. -/
theorem accepted_value_callback (allowDecimal : Bool)
    (minBound maxBound : Option ℚ) (text : String)
    (hacc : text = "" ∨ text = "-" ∨ (allowDecimal = true ∧ text = ".") ∨
      matchesNumericRegex allowDecimal text = true) :
    (handleChangeText allowDecimal minBound maxBound text).valueEvent =
        some (if (text = "" ∨ text = "-" ∨ text = ".") ∨
                validateNumber minBound maxBound text ≠ none
              then (none : Option ℚ) else jsParseFloat text) ∧
      ∀ v : ℚ,
        (handleChangeText allowDecimal minBound maxBound text).valueEvent =
            some (some v) →
          jsParseFloat text = some v ∧
            (∀ m, minBound = some m → m ≤ v) ∧
            (∀ mx, maxBound = some mx → v ≤ mx) := by
  by_cases hprov : text = "" ∨ text = "-" ∨ (allowDecimal = true ∧ text = ".")
  · have hv : (handleChangeText allowDecimal minBound maxBound
        text).valueEvent = some none := by
      unfold handleChangeText
      rw [if_pos hprov]
    have hdot : text = "" ∨ text = "-" ∨ text = "." := by
      rcases hprov with h | h | ⟨_, h⟩
      exacts [Or.inl h, Or.inr (Or.inl h), Or.inr (Or.inr h)]
    constructor
    · rw [hv, if_pos (Or.inl hdot)]
    · intro v hveq
      rw [hv] at hveq
      simp at hveq
  · have hre : matchesNumericRegex allowDecimal text = true := by
      rcases hacc with h | h | h | h
      · exact absurd (Or.inl h) hprov
      · exact absurd (Or.inr (Or.inl h)) hprov
      · exact absurd (Or.inr (Or.inr h)) hprov
      · exact h
    have hreF : ¬(matchesNumericRegex allowDecimal text = false) := by
      simp [hre]
    by_cases hval : validateNumber minBound maxBound text = none ∧
        ¬(text = "" ∨ text = "-" ∨ text = ".")
    · have hv : (handleChangeText allowDecimal minBound maxBound
          text).valueEvent = some (jsParseFloat text) := by
        unfold handleChangeText
        rw [if_neg hprov, if_neg hreF, if_pos hval]
      constructor
      · rw [hv]
        have hcond : ¬((text = "" ∨ text = "-" ∨ text = ".") ∨
            validateNumber minBound maxBound text ≠ none) := by
          rintro (hd | hne2)
          · exact hval.2 hd
          · exact hne2 hval.1
        rw [if_neg hcond]
      · intro v hveq
        rw [hv] at hveq
        have hp : jsParseFloat text = some v := Option.some.inj hveq
        obtain ⟨w, hw, hminB, hmaxB⟩ :=
          validateNumber_none_bounds minBound maxBound text hval.2 hval.1
        have hwv : w = v := by
          rw [hw] at hp
          exact Option.some.inj hp
        subst hwv
        exact ⟨hw, hminB, hmaxB⟩
    · have hv : (handleChangeText allowDecimal minBound maxBound
          text).valueEvent = some none := by
        unfold handleChangeText
        rw [if_neg hprov, if_neg hreF, if_neg hval]
      constructor
      · rw [hv]
        have hcond : (text = "" ∨ text = "-" ∨ text = ".") ∨
            validateNumber minBound maxBound text ≠ none := by
          by_cases hd : text = "" ∨ text = "-" ∨ text = "."
          · exact Or.inl hd
          · refine Or.inr fun hnone => hval ⟨hnone, hd⟩
        rw [if_pos hcond]
      · intro v hveq
        rw [hv] at hveq
        simp at hveq

/-- Witness for C10 at a concrete input: `"45"` with bounds 0 and 150
passes the gate and delivers the parsed value 45. -/
theorem accepted_value_callback_witness :
    matchesNumericRegex false "45" = true ∧
      (handleChangeText false (some 0) (some 150) "45").valueEvent =
        some (if (("45" : String) = "" ∨ ("45" : String) = "-" ∨
                  ("45" : String) = ".") ∨
                validateNumber (some 0) (some 150) "45" ≠ none
              then (none : Option ℚ)
              else jsParseFloat "45") :=
  ⟨by decide,
    (accepted_value_callback false (some 0) (some 150) "45"
      (Or.inr (Or.inr (Or.inr (by decide))))).1⟩

end DesignSystemAtoms
